/-
Verification of the race-analysis repository's analytical core.

Shallow embedding of the two source files:
  - LTHREstimate.py: telemetry normalizer (parse_fit_file), threshold
    estimator (calculate_lthr_from_last_20_minutes), band generator
    (calculate_heart_rate_zones), sample classifier (classify_zone),
    and the custom-export construction in main.
  - race_analysis_app.py: the scatter-plot marker rules (create_scatterplot).

Modelling conventions:
  - Python floats are modelled as ℚ (exact arithmetic with the same
    mean = sum / count semantics); NaN / missing cells are Option ℚ.
  - Python int() truncation toward zero is modelled by int_trunc
    (floor for non-negative arguments, ceiling for negative ones).
  - pandas DataFrames are lists of rows (telemetry) or association lists
    of named columns (export model).
  - pandas sort_values is given a relational semantics: the output is a
    permutation of the input that is sorted by the key.  The default
    sort kind (quicksort) does not promise a particular order for rows
    with equal keys, so the relation deliberately admits every sorted
    permutation.
-/
import Mathlib

/-! ## Band generator: calculate_heart_rate_zones (LTHREstimate.py lines 122-160) -/

/-- Python `int(q)`: truncation toward zero. -/
def int_trunc (q : ℚ) : ℤ := if q < 0 then ⌈q⌉ else ⌊q⌋

/-- One entry of the `zones` dictionary: key, human name, closed integer
interval `range = (lo, hi)`, and the percentage caption. -/
structure ZoneInfo where
  key : String
  name : String
  lo : ℤ
  hi : ℤ
  percentage : String
deriving DecidableEq

/-- `calculate_heart_rate_zones(lthr)`: the five hardcoded bands, each bound
computed independently as `int(lthr * pct)`.  The Python dict preserves
insertion order Z1..Z5, so it is modelled as an ordered list. -/
def calculate_heart_rate_zones (lthr : ℚ) : List ZoneInfo :=
  [ ⟨"Z1", "Zone 1 (Active Recovery)", int_trunc (lthr * (62/100)), int_trunc (lthr * (77/100)), "62-77% of LTHR"⟩,
    ⟨"Z2", "Zone 2 (Aerobic Base)", int_trunc (lthr * (77/100)), int_trunc (lthr * (86/100)), "77-86% of LTHR"⟩,
    ⟨"Z3", "Zone 3 (Tempo)", int_trunc (lthr * (86/100)), int_trunc (lthr * (91/100)), "86-91% of LTHR"⟩,
    ⟨"Z4", "Zone 4 (Lactate Threshold)", int_trunc (lthr * (91/100)), int_trunc (lthr * (95/100)), "91-95% of LTHR"⟩,
    ⟨"Z5", "Zone 5 (VO2 Max)", int_trunc (lthr * (95/100)), int_trunc (lthr * (103/100)), "95-103% of LTHR"⟩ ]

/-- The containment test of one iteration of classify_zone's loop:
`zone_info['range'][0] <= hr <= zone_info['range'][1]`. -/
def inZone (v : ℚ) (z : ZoneInfo) : Bool :=
  decide ((z.lo : ℚ) ≤ v) && decide (v ≤ (z.hi : ℚ))

/-- `zones['Z5']` lookup on the ordered zone list. -/
def zoneLookup (zones : List ZoneInfo) (k : String) : Option ZoneInfo :=
  zones.find? (fun z => z.key == k)

/-- `classify_zone(hr)` (LTHREstimate.py lines 447-453), as used in main: the
closure is always over `zones = calculate_heart_rate_zones(lthr)`, so it is
parametrised by the threshold.  NaN input gives `No Data`; otherwise the
first zone (in Z1..Z5 order) whose closed range contains the value wins;
with no match the result is `Above Z5` or `Below Z1` depending on
`hr > zones['Z5']['range'][1]`.  (The fallback arm for a missing Z5 key is
dead code: the generated zone list always contains Z5.) -/
def classify_zone (lthr : ℚ) (hr : Option ℚ) : String :=
  match hr with
  | none => "No Data"
  | some v =>
    match (calculate_heart_rate_zones lthr).find? (inZone v) with
    | some z => z.key
    | none =>
      match zoneLookup (calculate_heart_rate_zones lthr) "Z5" with
      | some z5 => if (z5.hi : ℚ) < v then "Above Z5" else "Below Z1"
      | none => "No Data"

/-- C2: with threshold 150 the generator yields exactly the five bands
Z1=[93,115], Z2=[115,129], Z3=[129,136], Z4=[136,142], Z5=[142,154],
each bound `int(150 * pct)` truncated toward zero. -/
theorem zones_at_threshold_150 :
    calculate_heart_rate_zones 150 =
      [ ⟨"Z1", "Zone 1 (Active Recovery)", 93, 115, "62-77% of LTHR"⟩,
        ⟨"Z2", "Zone 2 (Aerobic Base)", 115, 129, "77-86% of LTHR"⟩,
        ⟨"Z3", "Zone 3 (Tempo)", 129, 136, "86-91% of LTHR"⟩,
        ⟨"Z4", "Zone 4 (Lactate Threshold)", 136, 142, "91-95% of LTHR"⟩,
        ⟨"Z5", "Zone 5 (VO2 Max)", 142, 154, "95-103% of LTHR"⟩ ] := by
  simp only [calculate_heart_rate_zones, int_trunc]
  norm_num

/-! ## Helper lemmas for the classifier -/

theorem inZone_iff (v : ℚ) (z : ZoneInfo) :
    inZone v z = true ↔ ((z.lo : ℚ) ≤ v ∧ v ≤ (z.hi : ℚ)) := by
  simp [inZone]

theorem inZone_eq_false_iff (v : ℚ) (z : ZoneInfo) :
    inZone v z = false ↔ ¬((z.lo : ℚ) ≤ v ∧ v ≤ (z.hi : ℚ)) := by
  rw [Bool.eq_false_iff]
  simp [inZone]

theorem find_first_aux {α : Type} (p : α → Bool) :
    ∀ (l : List α) (i : ℕ) (h : i < l.length),
      p (l.get ⟨i, h⟩) = true →
      (∀ x ∈ l.take i, p x = false) →
      l.find? p = some (l.get ⟨i, h⟩) := by
  intro l
  induction l with
  | nil => intro i h; exact absurd h (by simp)
  | cons a l ih =>
    intro i h hp hfirst
    cases i with
    | zero => exact List.find?_cons_of_pos _ hp
    | succ n =>
      have ha : p a = false := hfirst a (by simp)
      rw [List.find?_cons_of_neg _ (by simp [ha])]
      exact ih n (Nat.lt_of_succ_lt_succ h) hp
        (fun x hx => hfirst x (by simp at hx ⊢; exact Or.inr hx))

theorem classify_zone_first (lthr v : ℚ) (i : ℕ)
    (h : i < (calculate_heart_rate_zones lthr).length)
    (hp : inZone v ((calculate_heart_rate_zones lthr).get ⟨i, h⟩) = true)
    (hfirst : ∀ z ∈ (calculate_heart_rate_zones lthr).take i, inZone v z = false) :
    classify_zone lthr (some v) = ((calculate_heart_rate_zones lthr).get ⟨i, h⟩).key := by
  simp only [classify_zone]
  rw [find_first_aux (inZone v) _ i h hp hfirst]

theorem classify_zone_nomatch (lthr v : ℚ)
    (hnone : ∀ z ∈ calculate_heart_rate_zones lthr, inZone v z = false) :
    classify_zone lthr (some v) =
      if (int_trunc (lthr * (103/100)) : ℚ) < v then "Above Z5" else "Below Z1" := by
  simp only [classify_zone]
  rw [List.find?_eq_none.mpr (fun x hx => by simp [hnone x hx])]
  have hlook : zoneLookup (calculate_heart_rate_zones lthr) "Z5" =
      some ⟨"Z5", "Zone 5 (VO2 Max)", int_trunc (lthr * (95/100)),
            int_trunc (lthr * (103/100)), "95-103% of LTHR"⟩ := rfl
  rw [hlook]

/-- C3: for every threshold-generated band set and every signal value: a
missing value classifies as `No Data`; a present value is assigned the key of
the FIRST band (in declared Z1..Z5 order) whose closed interval contains it;
only when no band contains it does the classifier fall back to `Above Z5`
(value strictly above Z5's upper bound) or `Below Z1` (otherwise); and the
shared boundary 115 with the threshold-150 bands resolves to Z1, not Z2. -/
theorem classify_zone_spec (lthr v : ℚ) :
    classify_zone lthr none = "No Data"
    ∧ (∀ (i : ℕ) (h : i < (calculate_heart_rate_zones lthr).length),
        inZone v ((calculate_heart_rate_zones lthr).get ⟨i, h⟩) = true →
        (∀ z ∈ (calculate_heart_rate_zones lthr).take i, inZone v z = false) →
        classify_zone lthr (some v) = ((calculate_heart_rate_zones lthr).get ⟨i, h⟩).key)
    ∧ ((∀ z ∈ calculate_heart_rate_zones lthr, inZone v z = false) →
        classify_zone lthr (some v) =
          if (int_trunc (lthr * (103/100)) : ℚ) < v then "Above Z5" else "Below Z1")
    ∧ classify_zone 150 (some 115) = "Z1" := by
  refine ⟨rfl, classify_zone_first lthr v, classify_zone_nomatch lthr v, ?_⟩
  have h5 : (0 : ℕ) < (calculate_heart_rate_zones 150).length := by
    simp [calculate_heart_rate_zones]
  have hz : inZone 115 ((calculate_heart_rate_zones 150).get ⟨0, h5⟩) = true := by
    rw [inZone_iff]
    show ((int_trunc (150 * (62/100)) : ℚ) ≤ 115 ∧ (115 : ℚ) ≤ (int_trunc (150 * (77/100)) : ℚ))
    norm_num [int_trunc]
  have := classify_zone_first 150 115 0 h5 hz (by simp)
  simpa using this

/-- Witness for C3: heart rate 120 with the threshold-150 bands lies in
Z2=[115,129] and in no earlier band, so it classifies as Z2. -/
theorem classify_zone_spec_witness : classify_zone 150 (some 120) = "Z2" := by
  have h5 : (1 : ℕ) < (calculate_heart_rate_zones 150).length := by
    simp [calculate_heart_rate_zones]
  have hz : inZone 120 ((calculate_heart_rate_zones 150).get ⟨1, h5⟩) = true := by
    rw [inZone_iff]
    show ((int_trunc (150 * (77/100)) : ℚ) ≤ 120 ∧ (120 : ℚ) ≤ (int_trunc (150 * (86/100)) : ℚ))
    norm_num [int_trunc]
  have hfirst : ∀ z ∈ (calculate_heart_rate_zones 150).take 1, inZone 120 z = false := by
    intro z hz'
    simp [calculate_heart_rate_zones] at hz'
    subst hz'
    rw [inZone_eq_false_iff]
    show ¬((int_trunc (150 * (62/100)) : ℚ) ≤ 120 ∧ (120 : ℚ) ≤ (int_trunc (150 * (77/100)) : ℚ))
    norm_num [int_trunc]
  have := (classify_zone_spec 150 120).2.1 1 h5 hz hfirst
  simpa using this

/-- C8: for every threshold, adjacent bands share exactly equal boundaries:
Z1.hi = Z2.lo, Z2.hi = Z3.lo, Z3.hi = Z4.lo, Z4.hi = Z5.lo, because each
shared bound is the same expression `int(threshold * pct)`. -/
theorem zones_shared_bounds (lthr : ℚ) :
    ∃ z1 z2 z3 z4 z5 : ZoneInfo,
      calculate_heart_rate_zones lthr = [z1, z2, z3, z4, z5] ∧
      z1.hi = z2.lo ∧ z2.hi = z3.lo ∧ z3.hi = z4.lo ∧ z4.hi = z5.lo :=
  ⟨_, _, _, _, _, rfl, rfl, rfl, rfl, rfl⟩

/-! ## Threshold estimator: calculate_lthr_from_last_20_minutes
(LTHREstimate.py lines 79-119).  Timestamps are rationals measured in
seconds; `timedelta(minutes=20)` is 1200 seconds. -/

/-- One normalized telemetry row, restricted to the two fields the estimator
reads: the timestamp and the (possibly NaN) heart-rate cell. -/
structure Sample where
  t : ℚ
  heart_rate : Option ℚ
deriving DecidableEq

/-- The present (non-NaN) heart-rate values of a session, in order:
`df['heart_rate'].dropna()`. -/
def hrPresent (df : List Sample) : List ℚ := df.filterMap Sample.heart_rate

/-- The trailing-window selection `df[df['timestamp'] >= end_time - 20min]`
(lines 103-104), where `end_time = df['timestamp'].iloc[-1]`. -/
def trailingWindow (df : List Sample) : List Sample :=
  match df with
  | [] => []
  | first :: rest =>
    (first :: rest).filter
      (fun s => decide (((first :: rest).getLast (List.cons_ne_nil first rest)).t - 1200 ≤ s.t))

/-- `calculate_lthr_from_last_20_minutes(df)`: returns the triple
`(avg_hr_last_20min, lthr, total_duration_minutes)`, each slot `None` in the
guard cases exactly as in the source. -/
def calculate_lthr_from_last_20_minutes (df : List Sample) :
    Option ℚ × Option ℚ × Option ℚ :=
  match df with
  | [] => (none, none, none)
  | first :: rest =>
    if hrPresent (first :: rest) = [] then (none, none, none)
    else
      let lastS := (first :: rest).getLast (List.cons_ne_nil first rest)
      let total_duration_minutes := (lastS.t - first.t) / 60
      let window0 := trailingWindow (first :: rest)
      let window := if window0 = [] then first :: rest else window0
      let vals := hrPresent window
      if vals = [] then (none, none, none)
      else
        let avg := vals.sum / (vals.length : ℚ)
        (some avg, some (avg * (95/100)), some total_duration_minutes)

/-- Spec-side description of the claims' window: samples whose timestamp lies
in the closed interval [last_timestamp - 20min, last_timestamp]. -/
def claimWindow (df : List Sample) : List Sample :=
  match df with
  | [] => []
  | first :: rest =>
    (first :: rest).filter
      (fun s =>
        decide (((first :: rest).getLast (List.cons_ne_nil first rest)).t - 1200 ≤ s.t)
        && decide (s.t ≤ ((first :: rest).getLast (List.cons_ne_nil first rest)).t))

/-! ## Helper lemmas for the estimator -/

theorem pairwise_le_getLast {l : List Sample}
    (hs : l.Pairwise (fun a b => a.t ≤ b.t)) (hne : l ≠ []) :
    ∀ s ∈ l, s.t ≤ (l.getLast hne).t := by
  induction l with
  | nil => exact absurd rfl hne
  | cons a l ih =>
    intro s hs'
    cases l with
    | nil =>
      simp at hs'
      simp [hs']
    | cons b t =>
      rw [List.getLast_cons (List.cons_ne_nil b t)]
      rcases List.mem_cons.mp hs' with rfl | hmem
      · exact le_trans (List.rel_of_pairwise_cons hs (List.getLast_mem _))
          (le_refl _)
      · exact ih (List.Pairwise.sublist (List.sublist_cons_self a (b :: t)) hs) (List.cons_ne_nil b t) s hmem

theorem getLast_mem_trailingWindow (df : List Sample) (hne : df ≠ []) :
    df.getLast hne ∈ trailingWindow df := by
  cases df with
  | nil => exact absurd rfl hne
  | cons first rest =>
    apply List.mem_filter.mpr
    refine ⟨List.getLast_mem _, ?_⟩
    simp only [decide_eq_true_eq]
    linarith [sub_le_self (((first :: rest).getLast (List.cons_ne_nil first rest)).t)
      (by norm_num : (0:ℚ) ≤ 1200)]

theorem trailingWindow_ne_nil (df : List Sample) (hne : df ≠ []) :
    trailingWindow df ≠ [] :=
  List.ne_nil_of_mem (getLast_mem_trailingWindow df hne)

theorem trailingWindow_sublist (df : List Sample) :
    (trailingWindow df).Sublist df := by
  cases df with
  | nil => simp [trailingWindow]
  | cons first rest => exact List.filter_sublist _

theorem claimWindow_eq_trailingWindow (df : List Sample)
    (hs : df.Pairwise (fun a b => a.t ≤ b.t)) :
    claimWindow df = trailingWindow df := by
  cases df with
  | nil => rfl
  | cons first rest =>
    simp only [claimWindow, trailingWindow]
    apply List.filter_congr
    intro s hmem
    have hle := pairwise_le_getLast hs (List.cons_ne_nil first rest) s hmem
    simp [hle]

theorem hrPresent_trailing_sublist (df : List Sample) :
    (hrPresent (trailingWindow df)).Sublist (hrPresent df) :=
  List.Sublist.filterMap Sample.heart_rate (trailingWindow_sublist df)

/-- A 2-minute session, heart-rate samples 100, 110, 120, used as concrete
witness input. -/
def demoSession : List Sample := [⟨0, some 100⟩, ⟨60, some 110⟩, ⟨120, some 120⟩]

/-- C9: for every non-empty session, the trailing-window selection contains
at least the last sample (its timestamp satisfies the inclusive predicate
`timestamp >= last_timestamp - 20min` trivially), so the window is non-empty
and the fall-back branch substituting the entire session
(`if len(last_20_min_data) == 0`) is unreachable for non-empty input. -/
theorem trailing_window_always_nonempty (df : List Sample) (hne : df ≠ []) :
    df.getLast hne ∈ trailingWindow df ∧ trailingWindow df ≠ [] :=
  ⟨getLast_mem_trailingWindow df hne, trailingWindow_ne_nil df hne⟩

/-- Witness for C9 at the concrete demo session. -/
theorem trailing_window_always_nonempty_witness :
    demoSession.getLast (List.cons_ne_nil _ _) ∈ trailingWindow demoSession ∧
    trailingWindow demoSession ≠ [] :=
  trailing_window_always_nonempty demoSession (List.cons_ne_nil _ _)

/-- C1: for every non-empty sorted session whose heart-rate cells have at
least one present value in the closed window
[last_timestamp - 20min, last_timestamp], the estimator returns exactly
(window_mean, window_mean * 0.95, (last_timestamp - first_timestamp) in
minutes), where window_mean is sum of present values / count of present
values over that window. -/
theorem lthr_estimator_mean_spec (df : List Sample) (hne : df ≠ [])
    (hsort : df.Pairwise (fun a b => a.t ≤ b.t))
    (hvals : hrPresent (claimWindow df) ≠ []) :
    calculate_lthr_from_last_20_minutes df =
      (some ((hrPresent (claimWindow df)).sum / ((hrPresent (claimWindow df)).length : ℚ)),
       some ((hrPresent (claimWindow df)).sum / ((hrPresent (claimWindow df)).length : ℚ) * (95/100)),
       some (((df.getLast hne).t - (df.head hne).t) / 60)) := by
  cases df with
  | nil => exact absurd rfl hne
  | cons first rest =>
    have hcw := claimWindow_eq_trailingWindow (first :: rest) hsort
    rw [hcw] at hvals ⊢
    have hdf : hrPresent (first :: rest) ≠ [] := by
      intro h0
      have hsub := hrPresent_trailing_sublist (first :: rest)
      rw [h0] at hsub
      exact hvals (List.sublist_nil.mp hsub)
    simp only [calculate_lthr_from_last_20_minutes]
    rw [if_neg hdf]
    rw [if_neg (trailingWindow_ne_nil (first :: rest) (List.cons_ne_nil first rest))]
    rw [if_neg hvals]
    simp [List.head_cons]

/-- Witness for C1: for the 2-minute demo session with heart-rate samples
[100, 110, 120], the estimator returns window_mean = 110,
threshold = 104.5 = 209/2, and total duration 2 minutes. -/
theorem lthr_estimator_mean_spec_witness :
    calculate_lthr_from_last_20_minutes demoSession =
      (some 110, some (209/2), some 2) := by
  have hne : demoSession ≠ [] := by simp [demoSession]
  have hsort : demoSession.Pairwise (fun a b => a.t ≤ b.t) := by
    norm_num [demoSession]
  have hw : claimWindow demoSession = demoSession := by
    norm_num [claimWindow, demoSession, List.getLast, List.filter]
  have hhr : hrPresent demoSession = [100, 110, 120] := by
    norm_num [hrPresent, demoSession, List.filterMap]
  have hvals : hrPresent (claimWindow demoSession) ≠ [] := by
    rw [hw, hhr]; simp
  rw [lthr_estimator_mean_spec demoSession hne hsort hvals, hw, hhr]
  norm_num [demoSession, List.getLast]

/-- C7: the estimator returns the three-way null (None, None, None) exactly
in the input-absent cases — empty session, heart-rate absent (NaN) in every
sample, or no present heart-rate value in the selected trailing window — and
each slot is None exactly when the others are (no half-null tuple; as a total
Lean function it also never raises). -/
theorem lthr_null_propagation (df : List Sample) :
    (((calculate_lthr_from_last_20_minutes df).1 = none
        ∧ (calculate_lthr_from_last_20_minutes df).2.1 = none
        ∧ (calculate_lthr_from_last_20_minutes df).2.2 = none)
      ↔ (df = [] ∨ hrPresent df = [] ∨ hrPresent (trailingWindow df) = []))
    ∧ ((calculate_lthr_from_last_20_minutes df).1 = none
        ↔ (calculate_lthr_from_last_20_minutes df).2.1 = none)
    ∧ ((calculate_lthr_from_last_20_minutes df).1 = none
        ↔ (calculate_lthr_from_last_20_minutes df).2.2 = none) := by
  cases df with
  | nil => simp [calculate_lthr_from_last_20_minutes]
  | cons first rest =>
    by_cases hdf : hrPresent (first :: rest) = []
    · have hw : hrPresent (trailingWindow (first :: rest)) = [] := by
        have hsub := hrPresent_trailing_sublist (first :: rest)
        rw [hdf] at hsub
        exact List.sublist_nil.mp hsub
      simp [calculate_lthr_from_last_20_minutes, hdf, hw]
    · by_cases hv : hrPresent (trailingWindow (first :: rest)) = []
      · simp [calculate_lthr_from_last_20_minutes, hdf,
              trailingWindow_ne_nil (first :: rest) (List.cons_ne_nil first rest), hv]
      · simp [calculate_lthr_from_last_20_minutes, hdf,
              trailingWindow_ne_nil (first :: rest) (List.cons_ne_nil first rest), hv]

/-! ## Telemetry normalizer: parse_fit_file (LTHREstimate.py lines 11-76).
A raw field-bag is an association list from field name to numeric value.
The DataFrame construction is: per-record allow-list filtering, admission
on timestamp presence, `sort_values('timestamp')` (relational: pandas'
default quicksort kind specifies the key order but not the relative order
of rows with equal keys), positional reindexing (implicit in the list
model), then semicircle-to-degree conversion of the position columns. -/

abbrev Row := List (String × ℚ)

/-- The allow-list of recognized field names (lines 33-49), verbatim. -/
def allowed_fields : List String :=
  [ "timestamp", "heart_rate", "cadence", "speed", "distance",
    "power", "altitude", "temperature", "position_lat", "position_long",
    "enhanced_speed", "enhanced_altitude", "grade", "calories",
    "accumulated_power", "left_right_balance", "gps_accuracy",
    "vertical_oscillation", "stance_time_percent", "stance_time",
    "activity_type", "left_torque_effectiveness", "right_torque_effectiveness",
    "left_pedal_smoothness", "right_pedal_smoothness", "combined_pedal_smoothness",
    "time_from_course", "cycle_length", "total_cycles", "compressed_speed_distance",
    "resistance", "time_in_hr_zone", "time_in_speed_zone", "time_in_cadence_zone",
    "time_in_power_zone", "repetition_num", "min_heart_rate", "max_heart_rate",
    "avg_heart_rate", "max_speed", "avg_speed", "total_calories", "fat_calories",
    "avg_cadence", "max_cadence", "avg_power", "max_power", "total_ascent",
    "total_descent", "training_stress_score", "intensity_factor", "normalized_power",
    "left_right_balance_100", "step_length", "avg_vertical_oscillation",
    "avg_stance_time_percent", "avg_stance_time", "fractional_cadence" ]

/-- The `data_point` built from one record: keep exactly the allow-listed
fields (`if field.name in [...]`). -/
def dataPoint (bag : Row) : Row := bag.filter (fun kv => decide (kv.1 ∈ allowed_fields))

/-- `'timestamp' in data_point`. -/
def hasTimestamp (row : Row) : Bool := row.any (fun kv => decide (kv.1 = "timestamp"))

/-- `all_data`: the admitted rows, in record order (lines 28-54). -/
def admittedRows (bags : List Row) : List Row :=
  (bags.map dataPoint).filter hasTimestamp

/-- Reading `row['timestamp']` (0 is irrelevant padding: admitted rows always
have the field). -/
def rowTs (row : Row) : ℚ :=
  match row with
  | [] => 0
  | (k, v) :: rest => if k = "timestamp" then v else rowTs rest

/-- Semicircle-to-degree conversion of one field:
`df['position_lat'] * (180 / 2**31)` (lines 66-70), applied per cell. -/
def convertField (kv : String × ℚ) : String × ℚ :=
  if kv.1 = "position_lat" ∨ kv.1 = "position_long"
  then (kv.1, kv.2 * (180 / 2^31)) else kv

def convertRow (row : Row) : Row := row.map convertField

/-- Relational semantics of `df.sort_values('timestamp')`: the output is some
permutation of the input that is non-decreasing in the timestamp.  pandas'
default `kind='quicksort'` does not document which permutation; every sorted
permutation is admitted. -/
def sort_values_rel (inp out : List Row) : Prop :=
  List.Perm out inp ∧ out.Pairwise (fun a b => rowTs a ≤ rowTs b)

/-- Relational semantics of parse_fit_file's table construction (lines 52-72):
admission, sort by timestamp, reindex, coordinate conversion. -/
def parse_fit_file_rel (bags : List Row) (out : List Row) : Prop :=
  ∃ sorted, sort_values_rel (admittedRows bags) sorted ∧ out = sorted.map convertRow

/-! ## Helper lemmas for the normalizer -/

theorem hasTimestamp_dataPoint (b : Row) :
    hasTimestamp (dataPoint b) = hasTimestamp b := by
  induction b with
  | nil => rfl
  | cons kv t ih =>
    by_cases h : kv.1 ∈ allowed_fields
    · simp [dataPoint, List.filter_cons, h, hasTimestamp, List.any_cons,
        (by simpa [dataPoint, hasTimestamp] using ih : _)]
    · have hne : kv.1 ≠ "timestamp" := fun he => h (by rw [he]; decide)
      simp [dataPoint, List.filter_cons, h, hasTimestamp, List.any_cons, hne,
        (by simpa [dataPoint, hasTimestamp] using ih : _)]

theorem rowTs_convertRow (r : Row) : rowTs (convertRow r) = rowTs r := by
  induction r with
  | nil => rfl
  | cons kv t ih =>
    obtain ⟨k, v⟩ := kv
    show rowTs (convertField (k, v) :: convertRow t) = rowTs ((k, v) :: t)
    by_cases h : k = "position_lat" ∨ k = "position_long"
    · have hk : k ≠ "timestamp" := by
        rcases h with h | h <;> (rw [h]; decide)
      rw [convertField, if_pos h]
      simp only [rowTs]
      rw [if_neg hk, if_neg hk, ih]
    · rw [convertField, if_neg h]
      simp only [rowTs]
      by_cases hk : k = "timestamp"
      · rw [if_pos hk, if_pos hk]
      · rw [if_neg hk, if_neg hk, ih]

/-- C6: (a) allow-list filtering never changes timestamp presence (the
timestamp field is itself allow-listed), and therefore (b) the admitted rows
are exactly the filtered images of those raw bags that carry a `timestamp`
field: a bag without one is discarded whatever else it contains, and a bag
with one is retained even if nothing else in it is recognized. -/
theorem normalizer_admission (bags : List Row) :
    (∀ b : Row, hasTimestamp (dataPoint b) = hasTimestamp b)
    ∧ admittedRows bags = (bags.filter hasTimestamp).map dataPoint := by
  refine ⟨hasTimestamp_dataPoint, ?_⟩
  simp only [admittedRows]
  rw [List.filter_map]
  congr 1
  exact List.filter_congr (fun b _ => hasTimestamp_dataPoint b)

/-- Two admitted bags with the same timestamp, differing in heart rate. -/
def bagA : Row := [("timestamp", 100), ("heart_rate", 100)]

def bagB : Row := [("timestamp", 100), ("heart_rate", 120)]

def bagC : Row := [("timestamp", 200), ("heart_rate", 110)]

/-- Counterexample to C4's stability clause: for the input [bagA, bagB] with
equal timestamps, the swapped table [bagB, bagA] is also an admissible output
of the normalizer's sort (pandas sort_values with the default unstable
quicksort promises only key order), yet it differs from the input-order
(stable) result — so stability with respect to input order is not
guaranteed by the code. -/
theorem normalizer_sort_not_stable :
    parse_fit_file_rel [bagA, bagB] [bagB, bagA] ∧
    [bagB, bagA] ≠ (admittedRows [bagA, bagB]).map convertRow := by
  constructor
  · refine ⟨[bagB, bagA], ⟨?_, ?_⟩, rfl⟩
    · show List.Perm [bagB, bagA] (admittedRows [bagA, bagB])
      have h : admittedRows [bagA, bagB] = [bagA, bagB] := rfl
      rw [h]
      exact List.Perm.swap bagA bagB []
    · simp [List.pairwise_cons]
      norm_num [rowTs, bagA, bagB]
  · have h : (admittedRows [bagA, bagB]).map convertRow = [bagA, bagB] := rfl
    rw [h]
    norm_num [bagA, bagB]

/-- C4 (amended): for every input bag sequence, every admissible output of the
normalizer is non-decreasing in the timestamp, and any two admissible outputs
for inputs that are permutations of each other are themselves permutations of
each other (same multiset of rows).  The original claim's stability clause is
dropped: see `normalizer_sort_not_stable`. -/
theorem normalizer_sorted_and_permutation_invariant
    (bags1 bags2 out1 out2 : List Row)
    (hperm : List.Perm bags1 bags2)
    (h1 : parse_fit_file_rel bags1 out1) (h2 : parse_fit_file_rel bags2 out2) :
    out1.Pairwise (fun a b => rowTs a ≤ rowTs b) ∧ List.Perm out1 out2 := by
  obtain ⟨s1, ⟨hp1, hs1⟩, rfl⟩ := h1
  obtain ⟨s2, ⟨hp2, hs2⟩, rfl⟩ := h2
  constructor
  · rw [List.pairwise_map]
    exact hs1.imp (fun hab => by rw [rowTs_convertRow, rowTs_convertRow]; exact hab)
  · apply List.Perm.map
    exact hp1.trans ((List.Perm.filter hasTimestamp (hperm.map dataPoint)).trans hp2.symm)

/-- Witness for the amended C4 at concrete inputs: the two-bag session given
in either order admits the sorted output [bagA, bagC], which is
non-decreasing and unique up to permutation. -/
theorem normalizer_sorted_and_permutation_invariant_witness :
    ([bagA, bagC] : List Row).Pairwise (fun a b => rowTs a ≤ rowTs b) ∧
    List.Perm [bagA, bagC] [bagA, bagC] := by
  have hsorted : ([bagA, bagC] : List Row).Pairwise (fun a b => rowTs a ≤ rowTs b) := by
    simp [List.pairwise_cons]
    norm_num [rowTs, bagA, bagC]
  have h1 : parse_fit_file_rel [bagC, bagA] [bagA, bagC] := by
    refine ⟨[bagA, bagC], ⟨?_, hsorted⟩, rfl⟩
    show List.Perm [bagA, bagC] (admittedRows [bagC, bagA])
    have h : admittedRows [bagC, bagA] = [bagC, bagA] := rfl
    rw [h]
    exact List.Perm.swap bagC bagA []
  have h2 : parse_fit_file_rel [bagA, bagC] [bagA, bagC] := by
    refine ⟨[bagA, bagC], ⟨?_, hsorted⟩, rfl⟩
    show List.Perm [bagA, bagC] (admittedRows [bagA, bagC])
    have h : admittedRows [bagA, bagC] = [bagA, bagC] := rfl
    rw [h]
  exact normalizer_sorted_and_permutation_invariant [bagC, bagA] [bagA, bagC]
    [bagA, bagC] [bagA, bagC] (List.Perm.swap bagA bagC []) h1 h2

/-! ## Comparative projector: create_scatterplot marker rules
(race_analysis_app.py lines 11-17 and 84-96). -/

def PODIUM_COLORS : List (ℤ × String) := [(1, "#FFD700"), (2, "#C0C0C0"), (3, "#CD7F32")]

def DEFAULT_COLOR : String := "#1f77b4"

def HIGHLIGHT_COLOR : String := "#FF0000"

/-- Python `str.lower()`. -/
def py_lower (s : String) : String := ⟨s.data.map Char.toLower⟩

/-- Python `str.strip()`: drop leading and trailing whitespace. -/
def py_strip (s : String) : String :=
  ⟨((s.data.dropWhile Char.isWhitespace).reverse.dropWhile Char.isWhitespace).reverse⟩

/-- The visual attributes chosen per row: color, size, symbol. -/
structure Marker where
  color : String
  size : ℕ
  symbol : String
deriving DecidableEq

/-- The `elif position in PODIUM_COLORS ... else ...` arms (lines 89-96). -/
def rank_marker (position : ℤ) : Marker :=
  match PODIUM_COLORS.lookup position with
  | some c => ⟨c, 12, "circle"⟩
  | none => ⟨DEFAULT_COLOR, 8, "circle"⟩

/-- The per-row marker decision (lines 85-96): `if highlighted_name and
name.strip().lower() == highlighted_name.strip().lower()` → red star of size
15; otherwise the rank-based arms.  `highlighted_name` is None or a string;
Python truthiness of a string is non-emptiness. -/
def marker_of (highlighted_name : Option String) (name : String) (position : ℤ) : Marker :=
  match highlighted_name with
  | some f =>
    if f ≠ "" ∧ py_lower (py_strip name) = py_lower (py_strip f)
    then ⟨HIGHLIGHT_COLOR, 15, "star"⟩
    else rank_marker position
  | none => rank_marker position

/-- C5: with a non-empty search filter, a row is marked with the highlight
marker (red star, size 15) exactly when its stripped lower-cased name equals
the stripped lower-cased filter; the highlight takes strict precedence over
the podium rule, and only non-matching rows receive gold/silver/bronze for
ranks 1/2/3 (default marker otherwise). -/
theorem scatter_highlight_precedence (name f : String) (position : ℤ) (hf : f ≠ "") :
    (marker_of (some f) name position = ⟨HIGHLIGHT_COLOR, 15, "star"⟩
       ↔ py_lower (py_strip name) = py_lower (py_strip f))
    ∧ (py_lower (py_strip name) = py_lower (py_strip f) →
        marker_of (some f) name position = ⟨HIGHLIGHT_COLOR, 15, "star"⟩)
    ∧ (py_lower (py_strip name) ≠ py_lower (py_strip f) →
        (position = 1 → marker_of (some f) name position = ⟨"#FFD700", 12, "circle"⟩)
        ∧ (position = 2 → marker_of (some f) name position = ⟨"#C0C0C0", 12, "circle"⟩)
        ∧ (position = 3 → marker_of (some f) name position = ⟨"#CD7F32", 12, "circle"⟩)
        ∧ (position ≠ 1 → position ≠ 2 → position ≠ 3 →
            marker_of (some f) name position = ⟨DEFAULT_COLOR, 8, "circle"⟩)) := by
  by_cases hm : py_lower (py_strip name) = py_lower (py_strip f)
  · have he : marker_of (some f) name position = ⟨HIGHLIGHT_COLOR, 15, "star"⟩ := by
      simp only [marker_of]
      rw [if_pos ⟨hf, hm⟩]
    exact ⟨⟨fun _ => hm, fun _ => he⟩, fun _ => he, fun hne => absurd hm hne⟩
  · have he : marker_of (some f) name position = rank_marker position := by
      simp only [marker_of]
      rw [if_neg (fun hc => hm hc.2)]
    refine ⟨⟨fun hcontra => ?_, fun hm' => absurd hm' hm⟩, fun hm' => absurd hm' hm,
      fun _ => ⟨?_, ?_, ?_, ?_⟩⟩
    · rw [he] at hcontra
      exfalso
      revert hcontra
      simp only [rank_marker]
      match hl : PODIUM_COLORS.lookup position with
      | some c => simp [HIGHLIGHT_COLOR]
      | none => simp [HIGHLIGHT_COLOR, DEFAULT_COLOR]
    · intro h1
      subst h1
      rw [he]
      rfl
    · intro h2
      subst h2
      rw [he]
      rfl
    · intro h3
      subst h3
      rw [he]
      rfl
    · intro h1 h2 h3
      rw [he]
      have e1 : (position == (1:ℤ)) = false := by
        simp [h1]
      have e2 : (position == (2:ℤ)) = false := by
        simp [h2]
      have e3 : (position == (3:ℤ)) = false := by
        simp [h3]
      simp only [rank_marker, PODIUM_COLORS, List.lookup, e1, e2, e3]

/-- Witness for C5: the filter "ALICE " highlights the row named " Alice"
even at rank 1 (precedence over the gold podium marker). -/
theorem scatter_highlight_precedence_witness :
    marker_of (some "ALICE ") " Alice" 1 = ⟨HIGHLIGHT_COLOR, 15, "star"⟩ :=
  (scatter_highlight_precedence " Alice" "ALICE " 1 (by decide)).2.1 (by decide)

/-! ## Custom telemetry export (LTHREstimate.py lines 443-460).
Column-oriented table model.  `df[selected_fields].copy()` produces an
independent table value (pandas .copy() severs aliasing), so subsequent
column assignments are modelled as functional updates of the export table
cell of the state while the session table cell is carried unchanged. -/

/-- One cell: NaN / a number / a string (the hr_zone labels). -/
inductive CellVal where
  | missing : CellVal
  | num : ℚ → CellVal
  | str : String → CellVal
deriving DecidableEq

abbrev Table := List (String × List CellVal)

def hasCol (t : Table) (name : String) : Bool := t.any (fun c => decide (c.1 = name))

def getCol (t : Table) (name : String) : List CellVal :=
  match t with
  | [] => []
  | (k, vs) :: rest => if k = name then vs else getCol rest name

/-- `t[name] = vals`: overwrite the column if present, else append it. -/
def setCol (t : Table) (name : String) (vals : List CellVal) : Table :=
  if hasCol t name then t.map (fun c => if c.1 = name then (name, vals) else c)
  else t ++ [(name, vals)]

/-- `df[selected_fields]`: project the selected columns, in selection order. -/
def selectCols (df : Table) (fields : List String) : Table :=
  fields.filterMap (fun f => if hasCol df f then some (f, getCol df f) else none)

def cellNum : CellVal → Option ℚ
  | CellVal.num q => some q
  | _ => none

/-- The two tables alive during export construction. -/
structure ExportState where
  df : Table
  export_df : Table

/-- Lines 443-460: `export_df = df[selected_fields].copy()`, then append
`hr_zone` (via classify_zone) and `lthr` when heart-rate is selected and the
threshold is defined, then `time_elapsed_seconds` (timestamps relative to the
first row) and `time_elapsed_minutes` (seconds / 60) when timestamp is
selected. -/
def runExportBuild (df : Table) (selected : List String) (lthr : Option ℚ) : ExportState :=
  let s0 : ExportState := ⟨df, selectCols df selected⟩
  let s1 : ExportState :=
    match lthr with
    | some l =>
      if "heart_rate" ∈ selected then
        let hrCol := getCol s0.export_df "heart_rate"
        let zoneCol := hrCol.map (fun c => CellVal.str (classify_zone l (cellNum c)))
        let withZone : ExportState := ⟨s0.df, setCol s0.export_df "hr_zone" zoneCol⟩
        let lthrCol := List.replicate hrCol.length (CellVal.num l)
        ⟨withZone.df, setCol withZone.export_df "lthr" lthrCol⟩
      else s0
    | none => s0
  if "timestamp" ∈ selected then
    let tsCol := getCol s1.export_df "timestamp"
    let t0 : ℚ := match tsCol with
      | CellVal.num q :: _ => q
      | _ => 0
    let secs := tsCol.map (fun c =>
      match c with
      | CellVal.num q => CellVal.num (q - t0)
      | _ => CellVal.missing)
    let mins := secs.map (fun c =>
      match c with
      | CellVal.num q => CellVal.num (q / 60)
      | _ => CellVal.missing)
    let withSecs : ExportState := ⟨s1.df, setCol s1.export_df "time_elapsed_seconds" secs⟩
    ⟨withSecs.df, setCol withSecs.export_df "time_elapsed_minutes" mins⟩
  else s1

/-- C10: building the custom export never mutates the normalized session
table: the appended columns land only on the fresh copy of the selected
columns, and the session table cell of the state is unchanged — every column
and value of the original `df` is intact for every selection and threshold. -/
theorem export_build_preserves_df (df : Table) (selected : List String)
    (lthr : Option ℚ) :
    (runExportBuild df selected lthr).df = df ∧
    (∀ name : String, getCol (runExportBuild df selected lthr).df name = getCol df name) := by
  have h : (runExportBuild df selected lthr).df = df := by
    unfold runExportBuild
    match lthr with
    | some l =>
      by_cases hhr : "heart_rate" ∈ selected <;>
        by_cases hts : "timestamp" ∈ selected <;>
          simp [hhr, hts]
    | none =>
      by_cases hts : "timestamp" ∈ selected <;> simp [hts]
  exact ⟨h, fun name => by rw [h]⟩
